import Mathlib

/-!
Verification development for the DocDown document-to-Markdown translation
engine (src/docdown.py).  The Python source is shallowly embedded: paragraphs,
runs, drawings and relationship-table entries become Lean structures; the
paragraph loop of `convert_to_markdown`, the classifier `get_heading_level`,
the code-paragraph test, the run linearizer, the image extractor
`extract_images` and the blank-line post-pass become executable Lean
functions.  Machine behaviour that the source relies on is modelled
explicitly:

* Python string operations (`strip`, `lower`, `split`, `replace`,
  `startswith`, `int(...)` parsing) are re-implemented structurally over
  `List Char` so that every definition evaluates inside the kernel.  They
  cover the ASCII behaviour the source exercises (style names, font names,
  fence and filename strings).
* python-docx guarantees used by the source are stated where they matter:
  `run.font` is always a truthy `Font` object, and `run.font.name` is `None`
  exactly when the run declares no explicit font.
* File writes can fail; each relationship carries a `writeFails` flag that
  plays the role of the exception raised by the `open/write` call in
  `extract_images`.
-/

/-! ## Python string primitives (ASCII behaviour used by the source) -/

/-- Characters removed by Python's default `str.strip()` (ASCII subset). -/
def charIsSpace (c : Char) : Bool :=
  c == ' ' || c == '\t' || c == '\n' || c == '\r' || c == '\x0b' || c == '\x0c'

/-- Python `str.strip()` with no argument: drop leading and trailing whitespace. -/
def strTrim (s : String) : String :=
  ⟨((s.data.dropWhile charIsSpace).reverse.dropWhile charIsSpace).reverse⟩

/-- ASCII lowering of one character, as Python `str.lower()` does on ASCII input. -/
def lowerChar (c : Char) : Char :=
  if 'A' ≤ c && c ≤ 'Z' then Char.ofNat (c.toNat + 32) else c

/-- Python `str.lower()` (ASCII behaviour). -/
def strLower (s : String) : String := ⟨s.data.map lowerChar⟩

/-- Python `str.startswith(pre)`. -/
def strStartsWith (s pre : String) : Bool := pre.data.isPrefixOf s.data

/-- Parse a nonempty all-digit character list as a natural number. -/
def parseNatDigits (cs : List Char) : Option Nat :=
  if cs.isEmpty then none
  else if cs.all Char.isDigit then
    some (cs.foldl (fun a c => a * 10 + (c.toNat - 48)) 0)
  else none

/-- Python `int(tok)` on a plain optionally-signed decimal token; `none` plays
the role of the `ValueError` that the source catches (other accepted Python
spellings such as embedded underscores are outside the styles this source
meets). -/
def parseIntTok (cs : List Char) : Option Int :=
  match cs with
  | '-' :: rest => (parseNatDigits rest).map (fun n => -(n : Int))
  | _ => (parseNatDigits cs).map (fun n => (n : Int))

/-- Helper for Python `str.split()` with no argument: accumulate the current
word (reversed in `acc`) and cut at whitespace runs, producing no empty words. -/
def wordsAux : List Char → List Char → List (List Char)
  | [], acc => if acc.isEmpty then [] else [acc.reverse]
  | c :: cs, acc =>
    if charIsSpace c then
      if acc.isEmpty then wordsAux cs [] else acc.reverse :: wordsAux cs []
    else wordsAux cs (c :: acc)

/-- Python `str.split()` with no argument. -/
def strWords (s : String) : List (List Char) := wordsAux s.data []

/-- Helper for Python `str.split('.')`: cut at every dot, keeping empty pieces. -/
def splitDotAux : List Char → List Char → List (List Char)
  | [], acc => [acc.reverse]
  | c :: cs, acc =>
    if c == '.' then acc.reverse :: splitDotAux cs [] else splitDotAux cs (c :: acc)

/-- Python `str.split('.')`. -/
def strSplitDot (s : String) : List (List Char) := splitDotAux s.data []

/-- Python `str.replace('\t', '    ')`: expand each horizontal tab to 4 spaces. -/
def expandTabs (s : String) : String :=
  ⟨s.data.flatMap (fun c => if c == '\t' then [' ', ' ', ' ', ' '] else [c])⟩

/-- Python `str.replace('\n', ' ')`: turn each newline into a space. -/
def newlinesToSpaces (s : String) : String :=
  ⟨s.data.map (fun c => if c == '\n' then ' ' else c)⟩

/-! ## Data model

The document archive parser (python-docx) is the external collaborator; the
engine consumes paragraphs, runs, drawing elements and relationship entries,
which are embedded as the following structures. -/

/-- The run-level formatting element `w:rPr` as `get_heading_level` reads it:
an optional font-size element `w:sz` whose `w:val` parsed as an integer is
`sz` (half-points; a `w:sz` with an unparsable value raises in the source and
is absorbed by the surrounding `except` into level 0, so it is not modelled
as a separate state), and the presence of a bold element `w:b` as `bold`. -/
structure RunProps where
  sz : Option Int
  bold : Bool
deriving Repr, DecidableEq

/-- One `w:drawing` element found inside a run.  `anchored` records that a
`wp:inline` or `wp:anchor` child was found; `embed` is the
`r:embed` attribute of the `a:blip` child (`none` when the blip or the
attribute is missing); `descr` is the `descr` attribute of `wp:docPr`
(`none` when the element or the attribute is missing, in which case the
source falls back to the literal `"Image"`). -/
structure Drawing where
  anchored : Bool
  embed : Option String
  descr : Option String
deriving Repr, DecidableEq

/-- A run: its text, the `w:drawing` elements it contains in document order,
its explicit font name, and its `w:rPr` element.  In python-docx `run.font`
is always a (truthy) `Font` object, so the source's `if run.font` filter in
the code-paragraph test keeps every run; `fontName` here is `run.font.name`,
which is `None` exactly when the run declares no explicit font. -/
structure Run where
  text : String
  drawings : List Drawing
  fontName : Option String
  rPr : Option RunProps
deriving Repr, DecidableEq

/-- A paragraph: its style name and its runs in document order. -/
structure Paragraph where
  styleName : String
  runs : List Run
deriving Repr, DecidableEq

/-- One entry of the archive relationship table, together with the outcome of
the file write the extractor will attempt on it.  `isImage` is Python's
`"image" in rel.reltype`; `hasTarget` is the
`hasattr(rel, 'target_part') and hasattr(rel.target_part, 'blob')` guard;
`blob` is the binary payload (empty list = falsy); `targetRef` is
`rel.target_ref`; `rId` is `rel.rId`.  `writeFails` models whether the
`open(...)/write(...)` call for this image raises: it is environment input,
not something the source computes. -/
structure Relationship where
  rId : String
  isImage : Bool
  hasTarget : Bool
  blob : List Nat
  targetRef : String
  writeFails : Bool
deriving Repr, DecidableEq

/-- The slice of `ConversionStats` that `extract_images` touches. -/
structure ConversionStats where
  totalImages : Nat
  failedImages : List (String × String)
  fileImageCounts : List (String × Nat)
deriving Repr, DecidableEq

/-! ## Paragraph classifier: `get_heading_level` (source lines 43-81) -/

/-- Python `int(style_name.split()[-1])` wrapped in the enclosing `try`: the
last whitespace-separated token parsed as an integer, `none` when the token
list is empty (IndexError) or the token is not a plain integer (ValueError);
the source's `except` turns `none` into 0 at the call site. -/
def styleTrailingInt (s : String) : Option Int :=
  parseIntTok ((strWords s).getLastD [])

/-- Embedding of `get_heading_level` (source lines 43-81).  Style name first:
a style starting with `"Heading"` yields its trailing integer token (0 when
parsing fails), `"Title"` yields 1.  Otherwise the first run whose `w:rPr`
is present is inspected: a font size (half-points, floor-divided by 2 as
Python `//`) of at least 20/16/14 points yields 1/2/3; below every threshold
the bold element is consulted next (this fall-through is the source's actual
control flow) and yields 3 when present; otherwise 0. -/
def get_heading_level (p : Paragraph) : Int :=
  if strStartsWith p.styleName "Heading" then
    (styleTrailingInt p.styleName).getD 0
  else if p.styleName = "Title" then 1
  else
    match p.runs.find? (fun r => r.rPr.isSome) with
    | none => 0
    | some r =>
      match r.rPr with
      | none => 0
      | some props =>
        match props.sz with
        | some v =>
          if 20 ≤ Int.fdiv v 2 then 1
          else if 16 ≤ Int.fdiv v 2 then 2
          else if 14 ≤ Int.fdiv v 2 then 3
          else if props.bold then 3 else 0
        | none => if props.bold then 3 else 0

/-- Embedding of the code-paragraph test (source lines 234-237):
`paragraph.style.name.lower().startswith('code') or
all(run.font.name in ['Consolas', 'Courier New'] for run in paragraph.runs
if run.font)`.  Since `run.font` is always truthy in python-docx the
generator's filter keeps every run, and a run whose `font.name` is `None`
makes the membership test `False`. -/
def is_code (p : Paragraph) : Bool :=
  strStartsWith (strLower p.styleName) "code" ||
  p.runs.all (fun r =>
    r.fontName == some "Consolas" || r.fontName == some "Courier New")

/-! ## Run linearizer (source lines 181-217) -/

/-- A collected paragraph content item: the dicts
`{'type': 'text'|'image', 'content': ...}` of the source. -/
inductive ContentItem where
  | text (content : String)
  | image (content : String)
deriving Repr, DecidableEq

/-- The `'content'` entry of a content item. -/
def ContentItem.content : ContentItem → String
  | ContentItem.text s => s
  | ContentItem.image s => s

/-- The alt text for a drawing (source lines 199-201):
`docPr.get('descr', 'Image') if docPr is not None else 'Image'`, then
newlines replaced by spaces and surrounding whitespace stripped. -/
def altText (d : Drawing) : String :=
  strTrim (newlinesToSpaces (d.descr.getD "Image"))

/-- What one `w:drawing` element contributes (source lines 188-208): an image
item `![alt](path)` when an inline or anchor child exists, its blip carries
an `r:embed` id, and that id is a key of the extracted-image mapping;
nothing otherwise. -/
def drawingItem (refs : List (String × String)) (d : Drawing) : Option ContentItem :=
  if d.anchored then
    match d.embed with
    | some rid =>
      (refs.lookup rid).map
        (fun path => ContentItem.image ("![" ++ altText d ++ "](" ++ path ++ ")"))
    | none => none
  else none

/-- Whether a drawing resolves to an image present in the mapping. -/
def resolvesImage (refs : List (String × String)) (d : Drawing) : Bool :=
  (drawingItem refs d).isSome

/-- The image items a run contributes, in drawing order. -/
def runDrawingItems (refs : List (String × String)) (r : Run) : List ContentItem :=
  r.drawings.filterMap (drawingItem refs)

/-- Full contribution of one run (source lines 183-217): its image items,
followed by one text item holding the RAW run text when the trimmed text is
nonempty and no image item was produced (`if run.text.strip() and not
has_image`). -/
def runItems (refs : List (String × String)) (r : Run) : List ContentItem :=
  runDrawingItems refs r ++
    (if !(strTrim r.text == "") && (runDrawingItems refs r).isEmpty then
      [ContentItem.text r.text]
    else [])

/-- The `paragraph_content` list of the source: run contributions in run order. -/
def paragraphContent (refs : List (String × String)) (p : Paragraph) : List ContentItem :=
  (p.runs.map (runItems refs)).flatten

/-! ## Markdown emitter (source lines 176-271) -/

/-- One line appended to `md_content`.  The source appends the literal string
of three backticks both to open and to close a fence; the two append sites
are distinguished here so that fence balance is a statement about emitter
actions, while `render` recovers the exact strings the source accumulates. -/
inductive MdLine where
  | fenceOpen
  | fenceClose
  | str (s : String)
deriving Repr, DecidableEq

/-- The string the source appends for this line. -/
def MdLine.render : MdLine → String
  | MdLine.fenceOpen => "```"
  | MdLine.fenceClose => "```"
  | MdLine.str s => s

/-- Whether a line is blank in the sense of the post-pass (`line.strip()` falsy). -/
def isBlank (l : MdLine) : Bool := strTrim l.render == ""

/-- Concatenation of the text items only (headings and code lines drop image items). -/
def textConcat (content : List ContentItem) : String :=
  String.join (content.filterMap (fun it =>
    match it with
    | ContentItem.text s => some s
    | ContentItem.image _ => none))

/-- Concatenation of all items in order (normal paragraphs). -/
def allConcat (content : List ContentItem) : String :=
  String.join (content.map ContentItem.content)

/-- A heading line: `'#' * heading_level + ' ' + heading_text`. -/
def headingLine (lvl : Int) (content : List ContentItem) : String :=
  ⟨List.replicate lvl.toNat '#'⟩ ++ " " ++ textConcat content

/-- One iteration of the paragraph loop (source lines 179-266): given the
`in_code_block` state, the lines appended for this paragraph and the state
afterwards.  Branch order follows the source: empty content first (append a
blank line only outside a code block), then heading (closing an open fence),
then code (opening a fence when outside), then image-only, then normal text. -/
def paraStep (refs : List (String × String)) (inCode : Bool) (p : Paragraph) :
    List MdLine × Bool :=
  let content := paragraphContent refs p
  if content.isEmpty then
    (if inCode then [] else [MdLine.str ""], inCode)
  else if 0 < get_heading_level p then
    ((if inCode then [MdLine.fenceClose, MdLine.str ""] else []) ++
      [MdLine.str (headingLine (get_heading_level p) content)], false)
  else if is_code p then
    ((if inCode then [] else [MdLine.str "", MdLine.fenceOpen]) ++
      [MdLine.str (expandTabs (textConcat content))], true)
  else
    ((if inCode then [MdLine.fenceClose, MdLine.str ""] else []) ++
      (match content with
      | [ContentItem.image s] => [MdLine.str "", MdLine.str s, MdLine.str ""]
      | other =>
        if strTrim (allConcat other) == "" then [] else [MdLine.str (allConcat other)]),
    false)

/-- Accumulating step: the source appends this paragraph's lines to `md_content`. -/
def emitStep (refs : List (String × String)) (st : List MdLine × Bool) (p : Paragraph) :
    List MdLine × Bool :=
  (st.1 ++ (paraStep refs st.2 p).1, (paraStep refs st.2 p).2)

/-- The paragraph loop over a whole document from a given state. -/
def emitFold (refs : List (String × String)) (paras : List Paragraph)
    (st : List MdLine × Bool) : List MdLine × Bool :=
  paras.foldl (emitStep refs) st

/-- `md_content` after the loop and the final fence close (source lines 269-271). -/
def mdRawLines (refs : List (String × String)) (paras : List Paragraph) : List MdLine :=
  let st := emitFold refs paras ([], false)
  st.1 ++ (if st.2 then [MdLine.fenceClose, MdLine.str ""] else [])

/-- The blank-line post-pass (source lines 273-282): keep every nonblank
line, keep a blank line only when the previous kept line was not blank. -/
def cleanupLines : Bool → List MdLine → List MdLine
  | _, [] => []
  | lastBlank, l :: ls =>
    if !(isBlank l) then l :: cleanupLines false ls
    else if !lastBlank then l :: cleanupLines true ls
    else cleanupLines true ls

/-- The translation core of `convert_to_markdown` (source lines 176-282):
the cleaned Markdown lines produced for a document's paragraphs, given the
extracted-image mapping. -/
def convert_to_markdown (refs : List (String × String)) (paras : List Paragraph) :
    List MdLine :=
  cleanupLines false (mdRawLines refs paras)

/-- The paragraph kind `convert_to_markdown` dispatches on, read off from its
branch structure: empty content, heading (`get_heading_level > 0`), code,
single-image paragraph, or normal text. -/
inductive PKind where
  | heading (lvl : Int)
  | code
  | imageOnly
  | normal
  | empty
deriving Repr, DecidableEq

/-- Which branch of the paragraph loop a paragraph takes. -/
def classify (refs : List (String × String)) (p : Paragraph) : PKind :=
  let content := paragraphContent refs p
  if content.isEmpty then PKind.empty
  else if 0 < get_heading_level p then PKind.heading (get_heading_level p)
  else if is_code p then PKind.code
  else
    match content with
    | [ContentItem.image _] => PKind.imageOnly
    | _ => PKind.normal

/-! ## Asset extractor: `extract_images` (source lines 83-135) -/

/-- The extension given to an image file (source lines 100-104):
the last dot-separated piece of the relationship's target name, lower-cased,
coerced to `png` when not a known raster extension. -/
def extOf (r : Relationship) : String :=
  let e : String := ⟨((strSplitDot r.targetRef).getLastD []).map lowerChar⟩
  if ["png", "jpg", "jpeg", "gif", "bmp"].contains e then e else "png"

/-- Loop state of `extract_images`: the mapping built so far (`image_refs`),
the per-file counter (`file_image_count`), and the failed-image records
appended to the shared stats. -/
structure ImgState where
  refs : List (String × String)
  count : Nat
  failed : List (String × String)
deriving Repr, DecidableEq

/-- One iteration of the relationship loop (source lines 89-120).  Non-image
relationships and those without a resolvable payload are passed over; an
empty payload is skipped before the counter moves (`continue`); otherwise the
counter is incremented BEFORE the write is attempted, so a failing write
still consumes a sequence number and records a failure, while a successful
write adds the `rId → ./images/<name>` entry.  The recorded failure message
keeps the source's fixed prefix; the exception text is not modelled. -/
def processRel (docName : String) (st : ImgState) (r : Relationship) : ImgState :=
  if r.isImage && r.hasTarget then
    if r.blob.isEmpty then st
    else
      let n := st.count + 1
      let imageFilename := docName ++ "_image_" ++ toString n ++ "." ++ extOf r
      if r.writeFails then
        { st with
          count := n
          failed := st.failed ++
            [(docName, "Failed to extract image " ++ toString n ++ " from " ++ docName)] }
      else
        { st with
          count := n
          refs := st.refs ++ [(r.rId, "./images/" ++ imageFilename)] }
  else st

/-- Embedding of `extract_images` (source lines 83-135): fold the
relationship loop, then record the per-document image count, add it to the
running total, and return the mapping of successfully written images.
(Each document is processed once per batch, so the dict entry
`stats.file_image_counts[doc_name] = ...` is an append.) -/
def extract_images (docName : String) (rels : List Relationship) (stats : ConversionStats) :
    List (String × String) × ConversionStats :=
  let st := rels.foldl (processRel docName) ⟨[], 0, []⟩
  (st.refs,
    { stats with
      fileImageCounts := stats.fileImageCounts ++ [(docName, st.count)]
      totalImages := stats.totalImages + st.count
      failedImages := stats.failedImages ++ st.failed })

/-- A relationship on which an extraction attempt is initiated: image-typed,
with a resolvable and nonempty binary payload. -/
def initiated (r : Relationship) : Bool := r.isImage && r.hasTarget && !r.blob.isEmpty

/-! ## Specification-side definitions used to state the claims -/

/-- Scanner for fence discipline over emitted lines: `some b` is the
in-code-block state after the lines when no fence is opened while one is
open and none is closed while none is open; `none` marks a violation. -/
def scanState : List MdLine → Bool → Option Bool
  | [], b => some b
  | MdLine.fenceOpen :: ls, b => if b then none else scanState ls true
  | MdLine.fenceClose :: ls, b => if b then scanState ls false else none
  | MdLine.str _ :: ls, b => scanState ls b

/-- Recognizer for opening-fence lines. -/
def isOpenLine : MdLine → Bool
  | MdLine.fenceOpen => true
  | _ => false

/-- Recognizer for closing-fence lines. -/
def isCloseLine : MdLine → Bool
  | MdLine.fenceClose => true
  | _ => false

/-- Number of opening-fence lines the emitter appended. -/
def countOpen (xs : List MdLine) : Nat := xs.countP isOpenLine

/-- Number of closing-fence lines the emitter appended. -/
def countClose (xs : List MdLine) : Nat := xs.countP isCloseLine

/-- Whether a line list starts with a blank line. -/
def headBlank : List MdLine → Bool
  | [] => false
  | l :: _ => isBlank l

/-- Whether the list contains two consecutive blank lines anywhere. -/
def hasTwoBlankRun : List MdLine → Bool
  | [] => false
  | l :: ls => (isBlank l && headBlank ls) || hasTwoBlankRun ls

/-- Whether a content-item list contains no image item. -/
def noImageItems (items : List ContentItem) : Bool :=
  items.all (fun it =>
    match it with
    | ContentItem.image _ => false
    | _ => true)

/-- Reference formulation of the claimed numbering policy (C6), following the
claim's words, for comparison with `extract_images`: walking the
relationship table with a counter that advances once per initiated attempt,
each successfully written image is mapped to a path carrying the counter
value at its attempt, attempts with failing writes consume their number
without producing an entry, and skipped relationships consume nothing. -/
def seqRefsSpec (docName : String) : List Relationship → Nat → List (String × String)
  | [], _ => []
  | r :: rs, k =>
    if initiated r then
      if r.writeFails then seqRefsSpec docName rs (k + 1)
      else
        (r.rId, "./images/" ++ docName ++ "_image_" ++ toString (k + 1) ++ "." ++ extOf r)
          :: seqRefsSpec docName rs (k + 1)
    else seqRefsSpec docName rs k

/-- Modelled from the claim's words (C4), for comparison with `is_code`: code
when the lower-cased style name starts with `"code"`, or when at least one
run declares an explicit font name and every run that declares one declares
Consolas or Courier New, runs without an explicit font name being ignored. -/
def is_code_claimed (p : Paragraph) : Bool :=
  strStartsWith (strLower p.styleName) "code" ||
  ((p.runs.any (fun r => r.fontName.isSome)) &&
    (p.runs.all (fun r =>
      !r.fontName.isSome ||
        (r.fontName == some "Consolas" || r.fontName == some "Courier New"))))

/-! ## Concrete inputs used by counterexamples and witnesses -/

/-- A plain text run with no drawing, no explicit font and no `w:rPr`. -/
def plainRun (t : String) : Run :=
  { text := t, drawings := [], fontName := none, rPr := none }

/-- C2 counterexample input: a Word built-in style beyond level 6. -/
def cex2Para : Paragraph := { styleName := "Heading 7", runs := [plainRun "Seven"] }

/-- C2 witness input: a Title-styled paragraph. -/
def w2Para : Paragraph := { styleName := "Title", runs := [plainRun "T"] }

/-- C3 code paragraph (style name starts with `Code`). -/
def cex3Code : Paragraph := { styleName := "Code", runs := [plainRun "x"] }

/-- C3 empty paragraph: no runs, hence no content items. -/
def cex3Empty : Paragraph := { styleName := "Normal", runs := [] }

/-- C3 witness: a content-bearing, non-code paragraph. -/
def w3Text : Paragraph := { styleName := "Normal", runs := [plainRun "t"] }

/-- C4 counterexample input: one Consolas run and one run with no explicit
font name, in a style that is neither a heading nor code. -/
def cex4Para : Paragraph :=
  { styleName := "Normal"
    runs := [{ text := "x", drawings := [], fontName := some "Consolas", rPr := none },
             plainRun "y"] }

/-- C5 counterexample input: explicit font size 20 half-points (10 pt, below
every threshold) with an explicit bold flag. -/
def cex5Bold : Paragraph :=
  { styleName := "Body"
    runs := [{ text := "x", drawings := [], fontName := none,
               rPr := some { sz := some 20, bold := true } }] }

/-- C5 contrast input: same size, bold absent. -/
def cex5Plain : Paragraph :=
  { styleName := "Body"
    runs := [{ text := "x", drawings := [], fontName := none,
               rPr := some { sz := some 20, bold := false } }] }

/-- C5 witness run: explicit size 30 half-points (15 pt), no bold. -/
def w5Run : Run :=
  { text := "T", drawings := [], fontName := none,
    rPr := some { sz := some 30, bold := false } }

/-- C5 witness paragraph. -/
def w5Para : Paragraph := { styleName := "Body", runs := [w5Run] }

/-- C8 witness drawing: resolvable in the witness mapping. -/
def w8Drawing : Drawing := { anchored := true, embed := some "rId8", descr := some "fig" }

/-- C8 witness image-bearing run that also carries text. -/
def w8RunImg : Run := { text := "caption", drawings := [w8Drawing], fontName := none, rPr := none }

/-- C8 witness text run with surrounding whitespace. -/
def w8RunText : Run := { text := " raw ", drawings := [], fontName := none, rPr := none }

/-- C8 witness mapping. -/
def w8Map : List (String × String) := [("rId8", "./images/w8_image_1.png")]

/-- C9 witness drawing: its reference id is absent from the (empty) mapping. -/
def w9Drawing : Drawing := { anchored := true, embed := some "rId9", descr := none }

/-- C9 witness run: an unresolvable drawing together with nonblank text. -/
def w9Run : Run := { text := "hello", drawings := [w9Drawing], fontName := none, rPr := none }

/-- Reference formulation of the claimed blank-line collapse (C7): keep the
FIRST line of every maximal run of blank lines and drop the rest of the run,
keeping every nonblank line — so each run of two or more consecutive blank
lines becomes exactly one blank line. -/
def collapseBlankRuns : List MdLine → List MdLine
  | [] => []
  | l :: ls =>
    if isBlank l then l :: collapseBlankRuns (ls.dropWhile isBlank)
    else l :: collapseBlankRuns ls
termination_by xs => xs.length
decreasing_by
  · simp only [List.length_cons]
    exact Nat.lt_succ_of_le (List.dropWhile_sublist isBlank).length_le
  · simp

/-! ## Emitter lemmas -/

/-- Folding no paragraphs leaves the state unchanged. -/
lemma emitFold_nil (refs : List (String × String)) (st : List MdLine × Bool) :
    emitFold refs [] st = st := rfl

/-- Unfolding one paragraph of the loop. -/
lemma emitFold_cons (refs : List (String × String)) (p : Paragraph)
    (ps : List Paragraph) (st : List MdLine × Bool) :
    emitFold refs (p :: ps) st = emitFold refs ps (emitStep refs st p) := rfl

/-- The loop only ever appends: lines accumulated from `(acc, b)` are `acc`
followed by the lines accumulated from `([], b)`, with the same final state. -/
lemma emitFold_acc (refs : List (String × String)) (paras : List Paragraph) :
    ∀ (acc : List MdLine) (b : Bool),
      emitFold refs paras (acc, b) =
        (acc ++ (emitFold refs paras ([], b)).1, (emitFold refs paras ([], b)).2) := by
  induction paras with
  | nil => intro acc b; simp [emitFold]
  | cons p ps ih =>
    intro acc b
    rw [emitFold_cons, emitFold_cons]
    have h1 : emitStep refs (acc, b) p =
        (acc ++ (paraStep refs b p).1, (paraStep refs b p).2) := rfl
    have h2 : emitStep refs ([], b) p =
        ((paraStep refs b p).1, (paraStep refs b p).2) := by
      simp [emitStep]
    rw [h1, h2, ih (acc ++ (paraStep refs b p).1) (paraStep refs b p).2,
      ih (paraStep refs b p).1 (paraStep refs b p).2]
    simp

/-- The scanner distributes over append. -/
lemma scanState_append (xs ys : List MdLine) : ∀ b : Bool,
    scanState (xs ++ ys) b = (scanState xs b).bind (scanState ys) := by
  induction xs with
  | nil => intro b; simp [scanState]
  | cons l ls ih =>
    intro b
    cases l <;> cases b <;> simp [scanState, ih]

/-- Each paragraph's appended lines scan cleanly from the incoming state to
the outgoing state: fences are opened only from outside and closed only from
inside. -/
lemma scan_paraStep (refs : List (String × String)) (b : Bool) (p : Paragraph) :
    scanState (paraStep refs b p).1 b = some (paraStep refs b p).2 := by
  cases b <;> simp only [paraStep] <;> repeat' split
  all_goals simp_all [scanState]

/-- Scanner invariant over the whole paragraph loop. -/
lemma scan_emitFold (refs : List (String × String)) (paras : List Paragraph) :
    ∀ b : Bool,
      scanState (emitFold refs paras ([], b)).1 b =
        some (emitFold refs paras ([], b)).2 := by
  induction paras with
  | nil => intro b; simp [emitFold, scanState]
  | cons p ps ih =>
    intro b
    rw [emitFold_cons]
    have h2 : emitStep refs ([], b) p =
        ((paraStep refs b p).1, (paraStep refs b p).2) := by
      simp [emitStep]
    rw [h2, emitFold_acc]
    simp only [scanState_append, scan_paraStep, Option.some_bind]
    exact ih (paraStep refs b p).2

/-- The raw emitted lines (with the document-end close) scan from closed to
closed. -/
lemma scan_mdRawLines (refs : List (String × String)) (paras : List Paragraph) :
    scanState (mdRawLines refs paras) false = some false := by
  simp only [mdRawLines]
  rw [scanState_append, scan_emitFold]
  cases h : (emitFold refs paras ([], false)).2 <;> simp [h, scanState]

/-- Fence lines are not blank. -/
lemma isBlank_fenceOpen : isBlank MdLine.fenceOpen = false := by decide

/-- Closing-fence lines are not blank. -/
lemma isBlank_fenceClose : isBlank MdLine.fenceClose = false := by decide

/-- The blank-line post-pass removes only blank (non-fence) lines, so it does
not change what the scanner sees. -/
lemma scan_cleanupLines (xs : List MdLine) : ∀ (b0 b : Bool),
    scanState (cleanupLines b0 xs) b = scanState xs b := by
  induction xs with
  | nil => intro b0 b; rfl
  | cons l ls ih =>
    intro b0 b
    cases l with
    | fenceOpen => cases b <;> simp [cleanupLines, isBlank_fenceOpen, scanState, ih]
    | fenceClose => cases b <;> simp [cleanupLines, isBlank_fenceClose, scanState, ih]
    | str s =>
      by_cases hb : isBlank (MdLine.str s)
      · cases b0 <;> simp [cleanupLines, hb, scanState, ih]
      · simp [cleanupLines, hb, scanState, ih]

/-- A clean scan relates the fence counts to the initial and final states. -/
lemma scan_counts (xs : List MdLine) : ∀ (b b' : Bool),
    scanState xs b = some b' →
      countOpen xs + (if b then 1 else 0) = countClose xs + (if b' then 1 else 0) := by
  induction xs with
  | nil =>
    intro b b' h
    simp [scanState] at h
    subst h
    rfl
  | cons l ls ih =>
    intro b b' h
    cases l with
    | fenceOpen =>
      cases b with
      | true => simp [scanState] at h
      | false =>
        simp [scanState] at h
        have := ih true b' h
        simp [countOpen, countClose, List.countP_cons, isOpenLine, isCloseLine] at *
        omega
    | fenceClose =>
      cases b with
      | false => simp [scanState] at h
      | true =>
        simp [scanState] at h
        have := ih false b' h
        simp [countOpen, countClose, List.countP_cons, isOpenLine, isCloseLine] at *
        omega
    | str s =>
      simp [scanState] at h
      have := ih b b' h
      simp [countOpen, countClose, List.countP_cons, isOpenLine, isCloseLine] at *
      omega

/-! ## Post-pass lemmas -/

/-- The post-pass never leaves two consecutive blank lines, and from the
just-emitted-a-blank state its output never starts with a blank line. -/
lemma cleanup_no_two_blank (xs : List MdLine) : ∀ b : Bool,
    hasTwoBlankRun (cleanupLines b xs) = false ∧
      (b = true → headBlank (cleanupLines b xs) = false) := by
  induction xs with
  | nil => intro b; exact ⟨rfl, fun _ => rfl⟩
  | cons l ls ih =>
    intro b
    by_cases hb : isBlank l
    · cases b with
      | true =>
        simp only [cleanupLines, hb, Bool.not_true, Bool.false_eq_true, if_false,
          Bool.not_false, if_true]
        exact ⟨(ih true).1, fun _ => (ih true).2 rfl⟩
      | false =>
        simp only [cleanupLines, hb, Bool.not_true, Bool.false_eq_true, if_false,
          Bool.not_false, if_true]
        refine ⟨?_, ?_⟩
        · simp [hasTwoBlankRun, (ih true).1, (ih true).2 rfl]
        · intro h
          cases h
    · simp only [cleanupLines, hb, Bool.not_false, if_true]
      refine ⟨?_, ?_⟩
      · simp [hasTwoBlankRun, hb, (ih false).1]
      · intro _
        simp [headBlank, hb]

/-- The post-pass keeps every nonblank line, in order, unchanged. -/
lemma cleanup_filter (xs : List MdLine) : ∀ b : Bool,
    (cleanupLines b xs).filter (fun l => !(isBlank l)) =
      xs.filter (fun l => !(isBlank l)) := by
  induction xs with
  | nil => intro b; rfl
  | cons l ls ih =>
    intro b
    by_cases hb : isBlank l
    · cases b <;> simp [cleanupLines, hb, List.filter_cons, ih]
    · simp [cleanupLines, hb, List.filter_cons, ih]

/-- The post-pass output is a sublist of its input. -/
lemma cleanup_sublist (xs : List MdLine) : ∀ b : Bool,
    (cleanupLines b xs).Sublist xs := by
  induction xs with
  | nil => intro b; simp [cleanupLines]
  | cons l ls ih =>
    intro b
    by_cases hb : isBlank l
    · cases b with
      | true =>
        simp only [cleanupLines, hb, Bool.not_true, Bool.false_eq_true, if_false,
          Bool.not_false, if_true]
        exact (ih true).cons l
      | false =>
        simp only [cleanupLines, hb, Bool.not_true, Bool.false_eq_true, if_false,
          Bool.not_false, if_true]
        exact (ih true).cons₂ l
    · simp only [cleanupLines, hb, Bool.not_false, if_true]
      exact (ih false).cons₂ l

/-- The post-pass is exactly the reference collapse: started outside a blank
run it keeps the first line of each maximal blank run and drops the rest of
the run, and started in the just-emitted-a-blank state it first discards the
leading blank run. -/
lemma cleanup_eq_collapse (xs : List MdLine) :
    cleanupLines false xs = collapseBlankRuns xs ∧
    cleanupLines true xs = collapseBlankRuns (xs.dropWhile isBlank) := by
  induction xs with
  | nil => constructor <;> simp [cleanupLines, collapseBlankRuns]
  | cons l ls ih =>
    by_cases hb : isBlank l
    · constructor
      · simp [cleanupLines, hb, collapseBlankRuns, ih.2]
      · simp [cleanupLines, hb, List.dropWhile_cons, ih.2]
    · constructor
      · simp [cleanupLines, hb, collapseBlankRuns, ih.1]
      · simp [cleanupLines, hb, List.dropWhile_cons, collapseBlankRuns, ih.1]

/-! ## Claim theorems -/

/-- C1: for every document, the emitted Markdown has balanced, non-nested
code fences: the scan of the final output opens a fence only while no fence
is open, closes one only while one is open, and ends outside any fence
(which also forces the end-of-document close), and the number of
opening-fence lines equals the number of closing-fence lines. -/
theorem c1_fences_balanced (refs : List (String × String)) (paras : List Paragraph) :
    scanState (convert_to_markdown refs paras) false = some false ∧
    countOpen (convert_to_markdown refs paras) =
      countClose (convert_to_markdown refs paras) := by
  have h : scanState (convert_to_markdown refs paras) false = some false := by
    simp only [convert_to_markdown]
    rw [scan_cleanupLines]
    exact scan_mdRawLines refs paras
  refine ⟨h, ?_⟩
  have h2 := scan_counts (convert_to_markdown refs paras) false false h
  simpa using h2

/-- C7: for every document, after the post-pass the final output contains no
two consecutive blank lines, all nonblank lines keep their relative order
and exact content (their filtered sequence is unchanged), every emitted line
comes from the raw emitter output (sublist), and the output equals the
reference collapse that keeps exactly the first blank line of each maximal
blank run — so every run of two or more consecutive blank lines is collapsed
to exactly one, never to zero. -/
theorem c7_blank_collapse (refs : List (String × String)) (paras : List Paragraph) :
    hasTwoBlankRun (convert_to_markdown refs paras) = false ∧
    (convert_to_markdown refs paras).filter (fun l => !(isBlank l)) =
      (mdRawLines refs paras).filter (fun l => !(isBlank l)) ∧
    (convert_to_markdown refs paras).Sublist (mdRawLines refs paras) ∧
    convert_to_markdown refs paras = collapseBlankRuns (mdRawLines refs paras) := by
  refine ⟨?_, ?_, ?_, ?_⟩
  · exact (cleanup_no_two_blank (mdRawLines refs paras) false).1
  · exact cleanup_filter (mdRawLines refs paras) false
  · exact cleanup_sublist (mdRawLines refs paras) false
  · exact (cleanup_eq_collapse (mdRawLines refs paras)).1

/-- C2 as stated fails: the built-in style "Heading 7" classifies to level 7,
outside [1,6], and the emitter renders a heading line with seven hash
characters. -/
theorem c2_counterexample :
    get_heading_level cex2Para = 7 ∧
    ¬(get_heading_level cex2Para = 0 ∨
        (1 ≤ get_heading_level cex2Para ∧ get_heading_level cex2Para ≤ 6)) ∧
    (convert_to_markdown [] [cex2Para]).map MdLine.render = ["####### Seven"] := by
  decide

/-- C2 amended: whenever the style name does not start with "Heading" (so
the level comes from the Title rule or the formatting heuristics), any
nonzero heading level lies in [1,6] (in fact in [1,3]); the "Heading N"
style branch instead returns the parsed trailing integer itself, which can
lie outside [1,6]. -/
theorem c2_amended (p : Paragraph) (h : strStartsWith p.styleName "Heading" = false) :
    get_heading_level p = 0 ∨
      (1 ≤ get_heading_level p ∧ get_heading_level p ≤ 6) := by
  simp only [get_heading_level, h, Bool.false_eq_true, if_false]
  repeat' split
  all_goals omega

/-- C2 amended witness at a Title-styled paragraph. -/
theorem c2_amended_witness :
    strStartsWith w2Para.styleName "Heading" = false ∧
    (get_heading_level w2Para = 0 ∨
      (1 ≤ get_heading_level w2Para ∧ get_heading_level w2Para ≤ 6)) :=
  ⟨by decide, c2_amended w2Para (by decide)⟩

/-- C3 as stated fails: after a code paragraph the emitter is INSIDE_CODE,
and processing an empty (non-Code) paragraph there emits nothing and leaves
the state INSIDE_CODE, instead of emitting a closing fence plus blank line
and transitioning to OUTSIDE_CODE. -/
theorem c3_counterexample :
    paraStep [] true cex3Empty = ([], true) ∧
    (emitFold [] [cex3Code, cex3Empty] ([], false)).2 = true := by
  decide

/-- C3 amended: while INSIDE_CODE, (a) an empty paragraph emits nothing and
stays INSIDE_CODE; (b) a content-bearing paragraph that is not classified
Code (a heading, or a non-code paragraph) emits a closing fence followed by
a blank line and transitions to OUTSIDE_CODE; and (c) if the document ends
INSIDE_CODE the closing fence and blank line are appended after the loop. -/
theorem c3_amended :
    (∀ (refs : List (String × String)) (p : Paragraph),
      (paragraphContent refs p).isEmpty = true →
        paraStep refs true p = ([], true)) ∧
    (∀ (refs : List (String × String)) (p : Paragraph),
      (paragraphContent refs p).isEmpty = false →
      (0 < get_heading_level p ∨ is_code p = false) →
        (∃ rest, (paraStep refs true p).1 = MdLine.fenceClose :: MdLine.str "" :: rest) ∧
        (paraStep refs true p).2 = false) ∧
    (∀ (refs : List (String × String)) (paras : List Paragraph),
      (emitFold refs paras ([], false)).2 = true →
        mdRawLines refs paras =
          (emitFold refs paras ([], false)).1 ++ [MdLine.fenceClose, MdLine.str ""]) := by
  refine ⟨?_, ?_, ?_⟩
  · intro refs p h
    simp [paraStep, h]
  · intro refs p h hk
    by_cases hh : 0 < get_heading_level p
    · exact ⟨⟨[MdLine.str (headingLine (get_heading_level p) (paragraphContent refs p))],
        by simp [paraStep, h, hh]⟩, by simp [paraStep, h, hh]⟩
    · have hc : is_code p = false := by
        rcases hk with hk | hk
        · exact absurd hk hh
        · exact hk
      exact ⟨⟨(match paragraphContent refs p with
          | [ContentItem.image s] => [MdLine.str "", MdLine.str s, MdLine.str ""]
          | other =>
            if strTrim (allConcat other) == "" then []
            else [MdLine.str (allConcat other)]),
        by simp [paraStep, h, hh, hc]⟩, by simp [paraStep, h, hh, hc]⟩
  · intro refs paras h
    simp [mdRawLines, h]

/-- C3 amended witness: an empty paragraph inside code emits nothing; a
normal text paragraph inside code closes the fence; a document ending inside
code gets the final close appended. -/
theorem c3_amended_witness :
    paraStep [] true cex3Empty = ([], true) ∧
    ((∃ rest, (paraStep [] true w3Text).1 = MdLine.fenceClose :: MdLine.str "" :: rest) ∧
      (paraStep [] true w3Text).2 = false) ∧
    mdRawLines [] [cex3Code] =
      (emitFold [] [cex3Code] ([], false)).1 ++ [MdLine.fenceClose, MdLine.str ""] :=
  ⟨c3_amended.1 [] cex3Empty (by decide),
   c3_amended.2.1 [] w3Text (by decide) (Or.inr (by decide)),
   c3_amended.2.2 [] [cex3Code] (by decide)⟩

/-- C5 as stated fails: with an explicit font size of 20 half-points (10 pt,
below every threshold) the classifier still consults the bold flag and
returns 3, where the claim requires the size thresholds alone to decide
(level 0 here); without the bold flag the same size yields 0. -/
theorem c5_counterexample :
    get_heading_level cex5Bold = 3 ∧
    get_heading_level cex5Plain = 0 ∧
    ((cex5Bold.runs.find? (fun r => r.rPr.isSome)).bind (fun r => r.rPr)).bind RunProps.sz
      = some 20 := by
  decide

/-- C5 amended: when the first run carrying explicit formatting declares an
explicit font size, the thresholds give 1/2/3 for at least 20/16/14 points
(half-points floor-divided by 2); below every threshold the bold flag is
consulted next and gives 3 when present, else 0 — so bold is consulted both
when no explicit size is present and when the size is below 14 points. -/
theorem c5_amended (p : Paragraph) (r : Run) (props : RunProps) (v : Int)
    (h1 : strStartsWith p.styleName "Heading" = false)
    (h2 : p.styleName ≠ "Title")
    (h3 : p.runs.find? (fun x => x.rPr.isSome) = some r)
    (h4 : r.rPr = some props)
    (h5 : props.sz = some v) :
    get_heading_level p =
      (if 20 ≤ Int.fdiv v 2 then 1
       else if 16 ≤ Int.fdiv v 2 then 2
       else if 14 ≤ Int.fdiv v 2 then 3
       else if props.bold then 3 else 0) := by
  simp [get_heading_level, h1, h2, h3, h4, h5]

/-- C5 amended witness: size 30 half-points (15 pt) yields level 3. -/
theorem c5_amended_witness : get_heading_level w5Para = 3 := by
  have h := c5_amended w5Para w5Run { sz := some 30, bold := false } 30
    (by decide) (by decide) (by decide) (by decide) (by decide)
  rw [h]
  decide

/-- Unfolding of the code test into propositional form: code style prefix, or
every run's declared font name equal to Consolas or Courier New (a run with
no declared font name fails the test). -/
lemma is_code_iff (p : Paragraph) :
    is_code p = true ↔
      (strStartsWith (strLower p.styleName) "code" = true ∨
        ∀ r ∈ p.runs,
          r.fontName = some "Consolas" ∨ r.fontName = some "Courier New") := by
  simp [is_code, List.all_eq_true]

/-- C4 as stated fails: a paragraph with one Consolas run and one run with no
explicit font name is code under the claim's reading (the no-font run being
ignored) but not under the source, whose membership test fails on the
missing font name; the paragraph is reachable by the code test (nonempty
content, not a heading). -/
theorem c4_counterexample :
    classify [] cex4Para ≠ PKind.code ∧
    is_code cex4Para = false ∧
    is_code_claimed cex4Para = true ∧
    (paragraphContent [] cex4Para).isEmpty = false ∧
    get_heading_level cex4Para = 0 := by
  decide

/-- C4 amended: a paragraph is classified Code exactly when it has content,
is not a heading, and either its lower-cased style name starts with "code"
or EVERY run declares a font name equal to Consolas or Courier New — a run
that declares no explicit font name defeats the all-runs branch rather than
being ignored, so a paragraph whose runs declare no font at all is not code
by that branch. -/
theorem c4_amended (refs : List (String × String)) (p : Paragraph) :
    classify refs p = PKind.code ↔
      ((paragraphContent refs p).isEmpty = false ∧
        get_heading_level p ≤ 0 ∧
        (strStartsWith (strLower p.styleName) "code" = true ∨
          ∀ r ∈ p.runs,
            r.fontName = some "Consolas" ∨ r.fontName = some "Courier New")) := by
  simp only [classify]
  by_cases h1 : (paragraphContent refs p).isEmpty
  · simp [h1]
  · by_cases h2 : 0 < get_heading_level p
    · simp only [h1, Bool.false_eq_true, if_false, h2, if_true]
      constructor
      · intro hcontr
        cases hcontr
      · rintro ⟨-, hle, -⟩
        omega
    · by_cases h3 : is_code p
      · simp only [h1, Bool.false_eq_true, if_false, h2, if_false, h3, if_true]
        constructor
        · intro _
          exact ⟨by simpa using h1, by omega, (is_code_iff p).mp h3⟩
        · intro _
          trivial
      · simp only [h1, Bool.false_eq_true, if_false, h2, if_false, h3]
        constructor
        · intro hcontr
          split at hcontr <;> cases hcontr
        · rintro ⟨-, -, hor⟩
          exact absurd ((is_code_iff p).mpr hor) (by simpa using h3)

/-- Every image item a drawing produces is an image-typed content item. -/
lemma drawingItem_is_image (refs : List (String × String)) (d : Drawing)
    (it : ContentItem) (h : drawingItem refs d = some it) :
    ∃ s, it = ContentItem.image s := by
  simp only [drawingItem] at h
  split at h
  · split at h
    · rcases Option.map_eq_some'.mp h with ⟨path, -, hp⟩
      exact ⟨_, hp.symm⟩
    · cases h
  · cases h

/-- A run's drawing items are empty exactly when none of its drawings
resolves to a mapped image. -/
lemma runDrawingItems_eq_nil_iff (refs : List (String × String)) (r : Run) :
    runDrawingItems refs r = [] ↔ ∀ d ∈ r.drawings, resolvesImage refs d = false := by
  simp only [runDrawingItems, List.filterMap_eq_nil_iff, resolvesImage]
  constructor
  · intro h d hd
    simp [h d hd]
  · intro h d hd
    have h2 := h d hd
    cases hcase : drawingItem refs d with
    | none => rfl
    | some it => simp [hcase] at h2

/-- When no drawing resolves, the run contributes exactly its raw-text item
(or nothing when the trimmed text is empty). -/
lemma runItems_no_resolve (refs : List (String × String)) (r : Run)
    (h : ∀ d ∈ r.drawings, resolvesImage refs d = false) :
    runItems refs r =
      (if strTrim r.text == "" then [] else [ContentItem.text r.text]) := by
  have h0 : runDrawingItems refs r = [] := (runDrawingItems_eq_nil_iff refs r).mpr h
  by_cases ht : strTrim r.text == ""
  · simp [runItems, h0, ht]
  · simp [runItems, h0, ht]

/-- C8: a run that resolves to at least one mapped image contributes exactly
its image items (no text item, even when its text is nonempty); a run with
no resolving drawing contributes the raw, untrimmed run text exactly when
the trimmed text is nonempty, and nothing otherwise. -/
theorem c8_run_linearization (refs : List (String × String)) (r : Run) :
    ((∃ d ∈ r.drawings, resolvesImage refs d = true) →
      runItems refs r = runDrawingItems refs r ∧
        ∀ it ∈ runItems refs r, ∃ s, it = ContentItem.image s) ∧
    ((∀ d ∈ r.drawings, resolvesImage refs d = false) →
      runItems refs r =
        (if strTrim r.text == "" then [] else [ContentItem.text r.text])) := by
  constructor
  · rintro ⟨d, hd, hres⟩
    have hne : runDrawingItems refs r ≠ [] := by
      intro h0
      have := (runDrawingItems_eq_nil_iff refs r).mp h0 d hd
      rw [hres] at this
      cases this
    have he : (runDrawingItems refs r).isEmpty = false := by
      simpa [List.isEmpty_iff] using hne
    constructor
    · simp [runItems, he]
    · intro it hit
      have hit' : it ∈ runDrawingItems refs r := by
        simpa [runItems, he] using hit
      rcases List.mem_filterMap.mp hit' with ⟨d', -, hd'⟩
      exact drawingItem_is_image refs d' it hd'
  · exact runItems_no_resolve refs r

/-- C8 witness: an image-bearing run with nonempty text contributes only its
image item; a drawing-free run contributes its raw untrimmed text. -/
theorem c8_witness :
    (runItems w8Map w8RunImg = runDrawingItems w8Map w8RunImg ∧
      ∀ it ∈ runItems w8Map w8RunImg, ∃ s, it = ContentItem.image s) ∧
    runItems w8Map w8RunText =
      (if strTrim w8RunText.text == "" then [] else [ContentItem.text w8RunText.text]) :=
  ⟨(c8_run_linearization w8Map w8RunImg).1 ⟨w8Drawing, by decide, by decide⟩,
   (c8_run_linearization w8Map w8RunText).2 (by decide)⟩

/-- C9: a run whose drawings all fail to resolve (for instance because the
referenced relationship id is absent from the image mapping after a failed
or skipped extraction) contributes no image item and no placeholder: only
its raw text when nonblank after trimming, and nothing otherwise. -/
theorem c9_missing_image (refs : List (String × String)) (r : Run)
    (_hne : r.drawings ≠ [])
    (h : ∀ d ∈ r.drawings, resolvesImage refs d = false) :
    runItems refs r =
      (if strTrim r.text == "" then [] else [ContentItem.text r.text]) ∧
    noImageItems (runItems refs r) = true := by
  have h0 := runItems_no_resolve refs r h
  refine ⟨h0, ?_⟩
  rw [h0]
  by_cases ht : strTrim r.text == "" <;> simp [ht, noImageItems]

/-- C9 witness: a run with an unmapped drawing and text "hello" yields just
the text item; the same holds with no image item present. -/
theorem c9_witness :
    runItems [] w9Run =
      (if strTrim w9Run.text == "" then [] else [ContentItem.text w9Run.text]) ∧
    noImageItems (runItems [] w9Run) = true :=
  c9_missing_image [] w9Run (by decide) (by decide)

/-- The counter moves by one exactly on initiated relationships. -/
lemma processRel_count (docName : String) (st : ImgState) (r : Relationship) :
    (processRel docName st r).count =
      st.count + (if initiated r then 1 else 0) := by
  simp only [processRel, initiated]
  repeat' split
  all_goals simp_all

/-- One loop step appends a mapping entry exactly for an initiated
relationship whose write succeeds, carrying the incremented counter value. -/
lemma processRel_refs (docName : String) (st : ImgState) (r : Relationship) :
    (processRel docName st r).refs =
      st.refs ++
        (if initiated r && !r.writeFails then
          [(r.rId,
            "./images/" ++ docName ++ "_image_" ++ toString (st.count + 1) ++ "." ++ extOf r)]
        else []) := by
  simp only [processRel, initiated]
  repeat' split
  all_goals simp_all [String.append_assoc]

/-- Characterization of the whole relationship loop from any starting state:
the counter advances once per initiated relationship, and the appended
mapping entries are exactly those of the reference numbering started at the
incoming counter value. -/
lemma processRel_fold (docName : String) (rels : List Relationship) :
    ∀ st : ImgState,
      (rels.foldl (processRel docName) st).count =
          st.count + (rels.filter initiated).length ∧
      (rels.foldl (processRel docName) st).refs =
          st.refs ++ seqRefsSpec docName rels st.count := by
  induction rels with
  | nil => intro st; simp [seqRefsSpec]
  | cons r rs ih =>
    intro st
    obtain ⟨hc, hr⟩ := ih (processRel docName st r)
    simp only [List.foldl_cons]
    constructor
    · rw [hc, processRel_count, List.filter_cons]
      by_cases hi : initiated r <;> simp [hi] <;> omega
    · rw [hr, processRel_refs, processRel_count]
      by_cases hi : initiated r
      · by_cases hw : r.writeFails <;> simp [seqRefsSpec, hi, hw]
      · simp [seqRefsSpec, hi]

/-- The reference numbering produces one entry per initiated relationship
whose write succeeds, regardless of the starting counter. -/
lemma seqRefsSpec_length (docName : String) (rels : List Relationship) : ∀ k : Nat,
    (seqRefsSpec docName rels k).length =
      (rels.filter (fun r => initiated r && !r.writeFails)).length := by
  induction rels with
  | nil => intro k; rfl
  | cons r rs ih =>
    intro k
    by_cases hi : initiated r
    · by_cases hw : r.writeFails <;> simp [seqRefsSpec, hi, hw, List.filter_cons, ih]
    · simp [seqRefsSpec, hi, List.filter_cons, ih]

/-- Initiated relationships split into failing and succeeding writes. -/
lemma filter_initiated_split (rels : List Relationship) :
    (rels.filter initiated).length =
      (rels.filter (fun r => initiated r && !r.writeFails)).length +
      (rels.filter (fun r => initiated r && r.writeFails)).length := by
  induction rels with
  | nil => rfl
  | cons r rs ih =>
    by_cases hi : initiated r
    · by_cases hw : r.writeFails <;> simp [List.filter_cons, hi, hw, ih] <;> omega
    · simp [List.filter_cons, hi, ih]

/-- Some initiated write fails exactly when the failing-write filter is
nonempty. -/
lemma filter_failed_pos_iff (rels : List Relationship) :
    0 < (rels.filter (fun r => initiated r && r.writeFails)).length ↔
      ∃ r ∈ rels, initiated r = true ∧ r.writeFails = true := by
  simp [List.length_pos_iff_exists_mem, List.mem_filter]

/-- C6: sequence numbers start at 1 and advance once per initiated
extraction attempt — the returned mapping equals the reference numbering
started at 0, so a failing write consumes its number without contributing an
entry, a relationship skipped for empty payload consumes nothing, and only
successfully written images appear; the per-document count records every
initiated attempt. -/
theorem c6_image_numbering (docName : String) (rels : List Relationship)
    (stats : ConversionStats) :
    (extract_images docName rels stats).1 = seqRefsSpec docName rels 0 ∧
    (extract_images docName rels stats).2.fileImageCounts =
      stats.fileImageCounts ++ [(docName, (rels.filter initiated).length)] := by
  obtain ⟨hc, hr⟩ := processRel_fold docName rels ⟨[], 0, []⟩
  constructor
  · simpa [extract_images] using hr
  · simp [extract_images, hc]

/-- C10: the per-document image count recorded in the stats (and added to
the running total) equals the number of initiated extraction attempts, is at
least the size of the returned mapping, and strictly exceeds it exactly when
some initiated write failed. -/
theorem c10_stats_attempts (docName : String) (rels : List Relationship)
    (stats : ConversionStats) :
    (extract_images docName rels stats).2.fileImageCounts =
      stats.fileImageCounts ++ [(docName, (rels.filter initiated).length)] ∧
    (extract_images docName rels stats).2.totalImages =
      stats.totalImages + (rels.filter initiated).length ∧
    (extract_images docName rels stats).1.length ≤ (rels.filter initiated).length ∧
    ((extract_images docName rels stats).1.length < (rels.filter initiated).length ↔
      ∃ r ∈ rels, initiated r = true ∧ r.writeFails = true) := by
  obtain ⟨hc, hr⟩ := processRel_fold docName rels ⟨[], 0, []⟩
  have hlen : (extract_images docName rels stats).1.length =
      (rels.filter (fun r => initiated r && !r.writeFails)).length := by
    simp [extract_images, hr, seqRefsSpec_length]
  have hsplit := filter_initiated_split rels
  have hpos := filter_failed_pos_iff rels
  refine ⟨by simp [extract_images, hc], by simp [extract_images, hc], ?_, ?_⟩
  · rw [hlen]
    omega
  · rw [hlen, ← hpos]
    omega
